import Mathlib

/-!
Shallow embedding of the balancebeam reverse proxy
(src/proj-2/balancebeam/src/main.rs): rate limiting, upstream selection,
per-connection handling, and active health checking, together with proofs
of the specified properties.
-/

namespace Balancebeam

/-- Upstream / client addresses are plain strings in the source
(`Vec<String>`, `peer_addr().ip().to_string()`). -/
abbrev Addr := String

/-- `type Report = Vec<String>`: the liveness report is the list of
upstream addresses currently considered unhealthy. -/
abbrev Report := List Addr

/-- `struct RateLimit { map: HashMap<String, usize> }`, embedded as an
association list from client IP to request count.  All updates in the
source go through `get_mut`/`insert`, which keep keys unique, and every
read is a keyed lookup, so the association-list lookup semantics match
the `HashMap` semantics. -/
abbrev RLMap := List (Addr × Nat)

/-- `rate_over` (main.rs:382-392): the client is over its rate when its
entry exists and is `>= max_requests_per_minute`.  A missing entry is
never over. -/
def rate_over (m : RLMap) (threshold : Nat) (ip : Addr) : Bool :=
  match m.lookup ip with
  | some v => decide (threshold ≤ v)
  | none => false

/-- The in-place `*value = *value + 1` of `rate_limit`, applied to one
map entry: entries keyed by `ip` are incremented, others are untouched. -/
def bumpEntry (ip : Addr) (p : Addr × Nat) : Addr × Nat :=
  if p.1 = ip then (p.1, p.2 + 1) else p

/-- `rate_limit` (main.rs:368-380): returns `true` (reject) and leaves
the map unchanged when `rate_over` holds; otherwise increments the
existing entry via `get_mut` or inserts a fresh entry with count 1, and
returns `false` (admit).  The `Bool` result is the Rust return value,
the map result is the post-state of the shared `HashMap`. -/
def rate_limit (m : RLMap) (threshold : Nat) (ip : Addr) : Bool × RLMap :=
  if rate_over m threshold ip then
    (true, m)
  else
    match m.lookup ip with
    | some _ => (false, m.map (bumpEntry ip))
    | none => (false, (ip, 1) :: m)

/-- Result of one call to `connect_to_upstream`.  The source function
(main.rs:179-203) is a `loop` with no `break`: it can only leave via
`return Ok(stream)` inside the loop.  The `return Err("All upstreams are
dead.")` after the loop is unreachable code; the `err` constructor
exists to state that it is never produced.  `running` means the loop has
not returned after the modelled number of RNG draws. -/
inductive ConnectOutcome
  | ok (addr : Addr)
  | err (msg : String)
  | running
deriving DecidableEq, Repr

/-- `connect_to_upstream` (main.rs:179-203), with the randomness and the
network made explicit: `draws` is the finite prefix of indices produced
by `rng.gen_range(0, len)` (each is `< upstreams.length`), and
`connect ip` tells whether `TcpStream::connect(ip)` succeeds.  The
liveness report is read once into `report` before the loop and never
refreshed.  Besides the outcome we record the list of addresses on which
a TCP connection was actually attempted. -/
def connect_to_upstream (upstreams : List Addr) (report : Report)
    (connect : Addr → Bool) : List Nat → ConnectOutcome × List Addr
  | [] => (.running, [])
  | idx :: rest =>
    let ip := upstreams.getD idx ""
    if report.contains ip then
      connect_to_upstream upstreams report connect rest
    else if connect ip then
      (.ok ip, [ip])
    else
      let r := connect_to_upstream upstreams report connect rest
      (r.1, ip :: r.2)

/-- `request::Error`, reconstructed from its uses in
`handle_connection` (main.rs:246-264). -/
inductive ReqError
  | incompleteRequest (n : Nat)
  | malformedRequest (msg : String)
  | invalidContentLength
  | contentLengthMismatch
  | requestBodyTooLarge
  | connectionError (msg : String)
deriving DecidableEq, Repr

/-- The status-code match of main.rs:257-264 that synthesizes the error
response for a parse error. -/
def errorStatus : ReqError → Nat
  | .incompleteRequest _ => 400
  | .malformedRequest _ => 400
  | .invalidContentLength => 400
  | .contentLengthMismatch => 400
  | .requestBodyTooLarge => 413
  | .connectionError _ => 503

/-- One iteration's environment for the request loop of
`handle_connection`: either `request::read_from_stream` yields a request
(`ok`, with the outcome of forwarding it — does the upstream write
succeed, and if so what status the upstream's response carries, `none`
meaning the response read/parse failed) or it yields an error. -/
inductive ReadOutcome
  | ok (forwardOk : Bool) (upstreamResp : Option Nat)
  | err (e : ReqError)
deriving DecidableEq, Repr

/-- Client-observable events of one connection: responses sent to the
client (by status), requests forwarded to the upstream, and the handler
returning (which drops and closes the client socket). -/
inductive Event
  | sentResponse (status : Nat)
  | forwardedRequest
  | closed
deriving DecidableEq, Repr

/-- The request loop of `handle_connection` (main.rs:241-303).
`Err(IncompleteRequest(0))` (clean EOF) and `Err(ConnectionError(_))`
make the handler return; any other read error sends the synthesized
error response and `continue`s; a parsed request is forwarded (a write
failure sends 502 and returns), then the upstream response is read (a
failure sends 502 and returns) and relayed.  An empty outcome list means
the loop is still waiting on the next client read. -/
def requestLoop : List ReadOutcome → List Event
  | [] => []
  | .err (.incompleteRequest 0) :: _ => [.closed]
  | .err (.connectionError _) :: _ => [.closed]
  | .err e :: rest => .sentResponse (errorStatus e) :: requestLoop rest
  | .ok forwardOk uresp :: rest =>
    if forwardOk then
      .forwardedRequest ::
        match uresp with
        | some st => .sentResponse st :: requestLoop rest
        | none => [.sentResponse 502, .closed]
    else [.sentResponse 502, .closed]

/-- Result of handling one client connection: the event trace and the
post-state of the shared rate-limit map. -/
structure ConnResult where
  events : List Event
  rlmap : RLMap
deriving DecidableEq, Repr

/-- `handle_connection` after the rate-limit gate (main.rs:228-303):
open an upstream connection via `connect_to_upstream`, answering 502 and
returning if it yields an error, then run the request loop.  The
rate-limit map is not touched anywhere past the gate.  When the
selection loop is still `running`, the handler is blocked inside
`connect_to_upstream` and no event has been produced. -/
def afterAdmission (m : RLMap) (upstreams : List Addr) (report : Report)
    (connect : Addr → Bool) (draws : List Nat) (outs : List ReadOutcome) :
    ConnResult :=
  match (connect_to_upstream upstreams report connect draws).1 with
  | .err _ => ⟨[.sentResponse 502, .closed], m⟩
  | .running => ⟨[], m⟩
  | .ok _ => ⟨requestLoop outs, m⟩

/-- `handle_connection` (main.rs:214-304): when `max_requests_per_minute
> 0`, the rate-limit check runs once, before any request is read; a
rejected client gets a 429 and the handler returns (closing the
connection); an admitted client proceeds with the updated map.  When the
threshold is 0 the gate is skipped entirely. -/
def handle_connection (threshold : Nat) (client_ip : Addr) (m : RLMap)
    (upstreams : List Addr) (report : Report) (connect : Addr → Bool)
    (draws : List Nat) (outs : List ReadOutcome) : ConnResult :=
  if 0 < threshold then
    let r := rate_limit m threshold client_ip
    if r.1 then ⟨[.sentResponse 429, .closed], r.2⟩
    else afterAdmission r.2 upstreams report connect draws outs
  else afterAdmission m upstreams report connect draws outs

/-- Outcome of probing one upstream in `health_check_upstream`
(main.rs:331-365): the TCP connect can fail, the request write can fail,
the response read/parse can fail, or a response with some status code
comes back. -/
inductive ProbeOutcome
  | connectFail
  | writeFail
  | readFail
  | status (code : Nat)
deriving DecidableEq, Repr

/-- `health_check_upstream` classification (main.rs:331-365): `true`
(the function returns `Ok(())`, the upstream is healthy) exactly when
the probe got a response with status 200; every failure and every
non-200 status yields `Err` (unhealthy). -/
def health_check_upstream : ProbeOutcome → Bool
  | .connectFail => false
  | .writeFail => false
  | .readFail => false
  | .status code => code == 200

/-- The `failed_servers` vector built by one cycle of `health_check`
(main.rs:315-321): every configured upstream whose probe did not pass. -/
def failedServers (probe : Addr → ProbeOutcome) (upstreams : List Addr) :
    Report :=
  upstreams.filter (fun ip => ! health_check_upstream (probe ip))

/-- The report update at the end of one `health_check` cycle
(main.rs:322-327): publish `failed_servers` as a full replacement,
skipping the write when the content is already equal. -/
def health_check_cycle (probe : Addr → ProbeOutcome)
    (upstreams : List Addr) (prior : Report) : Report :=
  let failed := failedServers probe upstreams
  if prior ≠ failed then failed else prior

/-- The liveness report after `n` health-check cycles, starting from the
empty report created in `main` (main.rs:124) and applying one
`health_check` cycle per step, with `probes k` giving cycle `k`'s probe
outcomes. -/
def reportAfter (probes : Nat → Addr → ProbeOutcome)
    (upstreams : List Addr) : Nat → Report
  | 0 => []
  | n + 1 => health_check_cycle (probes n) upstreams (reportAfter probes upstreams n)

/-- The rate-limit map after `k` consecutive `rate_limit` calls for the
same client IP (one call per connection, as `handle_connection` makes
them). -/
def iterRL (threshold : Nat) (ip : Addr) : Nat → RLMap → RLMap
  | 0, m => m
  | k + 1, m => (rate_limit (iterRL threshold ip k m) threshold ip).2

/-- Inputs of one spawned `handle_connection` task, for iterating the
accept loop of `main` (main.rs:152-168). -/
structure ConnInput where
  client_ip : Addr
  upstreams : List Addr
  report : Report
  connect : Addr → Bool
  draws : List Nat
  outs : List ReadOutcome

/-- The rate-limit map after the accept loop has handled a sequence of
connections at the given threshold. -/
def runConnections (threshold : Nat) : List ConnInput → RLMap → RLMap
  | [], m => m
  | c :: cs, m =>
    runConnections threshold cs
      (handle_connection threshold c.client_ip m c.upstreams c.report
        c.connect c.draws c.outs).rlmap

/-! ### Helper lemmas on the rate-limit map -/

theorem lookup_map_bump (ip : Addr) (m : RLMap) :
    List.lookup ip (m.map (bumpEntry ip)) =
      (List.lookup ip m).map (fun v => v + 1) := by
  induction m with
  | nil => rfl
  | cons p t ih =>
    obtain ⟨k, b⟩ := p
    by_cases hk : ip = k
    · subst hk
      simp [bumpEntry, List.lookup_cons, ih]
    · have hb : (ip == k) = false := by simp [hk]
      simp [bumpEntry, List.lookup_cons, hk, Ne.symm hk, hb, ih]

theorem lookup_map_bump_ne (ip ip' : Addr) (m : RLMap) (h : ip' ≠ ip) :
    List.lookup ip' (m.map (bumpEntry ip)) = List.lookup ip' m := by
  induction m with
  | nil => rfl
  | cons p t ih =>
    obtain ⟨k, b⟩ := p
    by_cases hk : k = ip
    · subst hk
      have hb : (ip' == k) = false := by simp [h]
      simp [bumpEntry, List.lookup_cons, hb, ih]
    · simp [bumpEntry, hk, List.lookup_cons, ih]

theorem rate_limit_fst (m : RLMap) (threshold : Nat) (ip : Addr) :
    (rate_limit m threshold ip).1 = rate_over m threshold ip := by
  unfold rate_limit
  by_cases h : rate_over m threshold ip
  · simp [h]
  · simp only [h]
    cases List.lookup ip m <;> simp

theorem rate_limit_reject (m : RLMap) (threshold : Nat) (ip : Addr)
    (h : rate_over m threshold ip = true) :
    rate_limit m threshold ip = (true, m) := by
  simp [rate_limit, h]

theorem rate_limit_admit_lookup (m : RLMap) (threshold : Nat) (ip : Addr)
    (h : rate_over m threshold ip = false) :
    List.lookup ip (rate_limit m threshold ip).2 =
      some ((List.lookup ip m).getD 0 + 1) := by
  unfold rate_limit
  simp only [h]
  cases hm : List.lookup ip m with
  | none => simp [List.lookup_cons, hm]
  | some v => simp [lookup_map_bump, hm]

theorem rate_limit_lookup_ne (m : RLMap) (threshold : Nat) (ip ip' : Addr)
    (h : ip' ≠ ip) :
    List.lookup ip' (rate_limit m threshold ip).2 = List.lookup ip' m := by
  unfold rate_limit
  by_cases hov : rate_over m threshold ip
  · simp [hov]
  · simp only [hov]
    cases hm : List.lookup ip m with
    | none =>
      have hb : (ip' == ip) = false := by simp [h]
      simp [List.lookup_cons, hb]
    | some v => simp [lookup_map_bump_ne _ _ _ h]

theorem lookup_iterRL (threshold : Nat) (ip : Addr) (m₀ : RLMap)
    (h0 : List.lookup ip m₀ = none) :
    ∀ k, k ≤ threshold →
      List.lookup ip (iterRL threshold ip k m₀) =
        if k = 0 then none else some k := by
  intro k
  induction k with
  | zero =>
    intro _
    show List.lookup ip m₀ = if 0 = 0 then none else some 0
    simp [h0]
  | succ k ih =>
    intro hk
    have hk' : k ≤ threshold := Nat.le_of_succ_le hk
    have ihk := ih hk'
    have hov : rate_over (iterRL threshold ip k m₀) threshold ip = false := by
      unfold rate_over
      rw [ihk]
      by_cases h : k = 0
      · simp [h]
      · simp only [if_neg h]
        simp [Nat.not_le.mpr (Nat.lt_of_succ_le hk)]
    rw [iterRL, rate_limit_admit_lookup _ _ _ hov, ihk]
    by_cases h : k = 0 <;> simp [h]

theorem iterRL_lookup_ne (threshold : Nat) (ip ip' : Addr) (m₀ : RLMap)
    (h : ip' ≠ ip) (k : Nat) :
    List.lookup ip' (iterRL threshold ip k m₀) = List.lookup ip' m₀ := by
  induction k with
  | zero => rfl
  | succ k ih => rw [iterRL, rate_limit_lookup_ne _ _ _ _ h, ih]

/-! ### Helper lemmas on connection handling -/

theorem afterAdmission_rlmap (m : RLMap) (upstreams : List Addr)
    (report : Report) (connect : Addr → Bool) (draws : List Nat)
    (outs : List ReadOutcome) :
    (afterAdmission m upstreams report connect draws outs).rlmap = m := by
  unfold afterAdmission
  cases (connect_to_upstream upstreams report connect draws).1 <;> rfl

theorem afterAdmission_events_indep (m m2 : RLMap) (upstreams : List Addr)
    (report : Report) (connect : Addr → Bool) (draws : List Nat)
    (outs : List ReadOutcome) :
    (afterAdmission m upstreams report connect draws outs).events =
      (afterAdmission m2 upstreams report connect draws outs).events := by
  unfold afterAdmission
  cases (connect_to_upstream upstreams report connect draws).1 <;> rfl

theorem handle_connection_zero (ip : Addr) (m : RLMap)
    (upstreams : List Addr) (report : Report) (connect : Addr → Bool)
    (draws : List Nat) (outs : List ReadOutcome) :
    handle_connection 0 ip m upstreams report connect draws outs =
      afterAdmission m upstreams report connect draws outs := by
  simp [handle_connection]

theorem runConnections_zero (conns : List ConnInput) (m : RLMap) :
    runConnections 0 conns m = m := by
  induction conns generalizing m with
  | nil => rfl
  | cons c cs ih =>
    rw [runConnections, handle_connection_zero, afterAdmission_rlmap, ih]

theorem handle_connection_reject (threshold : Nat) (ip : Addr) (m : RLMap)
    (upstreams : List Addr) (report : Report) (connect : Addr → Bool)
    (draws : List Nat) (outs : List ReadOutcome)
    (hN : 0 < threshold) (hov : rate_over m threshold ip = true) :
    handle_connection threshold ip m upstreams report connect draws outs =
      ⟨[.sentResponse 429, .closed], m⟩ := by
  unfold handle_connection
  rw [if_pos hN, rate_limit_reject _ _ _ hov]
  rfl

theorem handle_connection_admit (threshold : Nat) (ip : Addr) (m : RLMap)
    (upstreams : List Addr) (report : Report) (connect : Addr → Bool)
    (draws : List Nat) (outs : List ReadOutcome)
    (hN : 0 < threshold) (hov : rate_over m threshold ip = false) :
    handle_connection threshold ip m upstreams report connect draws outs =
      afterAdmission (rate_limit m threshold ip).2 upstreams report connect
        draws outs := by
  have hfst : (rate_limit m threshold ip).1 = false := by
    rw [rate_limit_fst]; exact hov
  unfold handle_connection
  rw [if_pos hN]
  simp [hfst]

/-! ### Claim theorems -/

/-- C1: with rate limiting enabled at threshold `N > 0`, the first `N`
rate-limit checks for a given client IP within one window are admitted,
the count after the `k`-th admitted check is exactly `k`, the `(N+1)`-th
check is rejected — the handler answers it with a 429 — and does not
increment the counter, and a different IP's counter is never affected. -/
theorem rate_limit_window_behavior (N : Nat) (ip : Addr) (m₀ : RLMap)
    (hN : 0 < N) (h0 : List.lookup ip m₀ = none) :
    (∀ k, k < N → (rate_limit (iterRL N ip k m₀) N ip).1 = false)
    ∧ (∀ k, 1 ≤ k → k ≤ N → List.lookup ip (iterRL N ip k m₀) = some k)
    ∧ (rate_limit (iterRL N ip N m₀) N ip).1 = true
    ∧ iterRL N ip (N + 1) m₀ = iterRL N ip N m₀
    ∧ (∀ upstreams report connect draws outs,
        (handle_connection N ip (iterRL N ip N m₀) upstreams report connect
          draws outs).events = [.sentResponse 429, .closed])
    ∧ (∀ ip2 k, ip2 ≠ ip →
        List.lookup ip2 (iterRL N ip k m₀) = List.lookup ip2 m₀) := by
  have hlook := lookup_iterRL N ip m₀ h0
  have hovN : rate_over (iterRL N ip N m₀) N ip = true := by
    unfold rate_over
    rw [hlook N (Nat.le_refl N), if_neg (Nat.pos_iff_ne_zero.mp hN)]
    simp
  refine ⟨?_, ?_, ?_, ?_, ?_, ?_⟩
  · intro k hk
    rw [rate_limit_fst]
    unfold rate_over
    rw [hlook k (Nat.le_of_lt hk)]
    by_cases h : k = 0
    · simp [h]
    · simp [h, Nat.not_le.mpr hk]
  · intro k h1 h2
    rw [hlook k h2, if_neg (Nat.pos_iff_ne_zero.mp h1)]
  · rw [rate_limit_fst]; exact hovN
  · rw [iterRL, rate_limit_reject _ _ _ hovN]
  · intro upstreams report connect draws outs
    rw [handle_connection_reject _ _ _ _ _ _ _ _ hN hovN]
  · intro ip2 k h
    exact iterRL_lookup_ne N ip ip2 m₀ h k

/-- Witness for C1 at `N = 2`, client `"a"`, empty initial map: the
third check is rejected and the map is left unchanged by it. -/
theorem rate_limit_window_behavior_witness :
    (0 < 2 ∧ List.lookup "a" ([] : RLMap) = none)
    ∧ (rate_limit (iterRL 2 "a" 2 []) 2 "a").1 = true
    ∧ iterRL 2 "a" 3 [] = iterRL 2 "a" 2 [] :=
  ⟨⟨by decide, rfl⟩,
    (rate_limit_window_behavior 2 "a" [] (by decide) rfl).2.2.1,
    (rate_limit_window_behavior 2 "a" [] (by decide) rfl).2.2.2.1⟩

/-- C3 counterexample: at threshold 1 with the client already at count
1, the handler sends 429 and then returns — the `closed` event occurs
and the handler does not loop back to read the pending request, contrary
to the claim that it loops back to await the next request with the
connection left open. -/
theorem reject_closes_connection_cex :
    Event.closed ∈ (handle_connection 1 "a" [("a", 1)] ["u"] []
        (fun _ => true) [0] [.ok true (some 200)]).events
    ∧ (handle_connection 1 "a" [("a", 1)] ["u"] [] (fun _ => true) [0]
        [.ok true (some 200)]).events ≠
      Event.sentResponse 429 :: requestLoop [.ok true (some 200)] := by
  decide

/-- C3 amended: when the rate-limit check rejects (count already at or
above the threshold), the handler responds 429 without incrementing the
counter and then returns, closing the client connection without reading
any request from it. -/
theorem reject_sends_429_then_closes (N : Nat) (ip : Addr) (m : RLMap)
    (upstreams : List Addr) (report : Report) (connect : Addr → Bool)
    (draws : List Nat) (outs : List ReadOutcome)
    (hN : 0 < N) (hov : rate_over m N ip = true) :
    handle_connection N ip m upstreams report connect draws outs =
      ⟨[.sentResponse 429, .closed], m⟩ :=
  handle_connection_reject N ip m upstreams report connect draws outs hN hov

/-- Witness for the amended C3 at a concrete rejected connection. -/
theorem reject_sends_429_then_closes_witness :
    (0 < 1 ∧ rate_over [("a", 1)] 1 "a" = true)
    ∧ handle_connection 1 "a" [("a", 1)] ["u"] [] (fun _ => true) [0]
        [.ok true (some 200)] = ⟨[.sentResponse 429, .closed], [("a", 1)]⟩ :=
  ⟨⟨by decide, by decide⟩,
    reject_sends_429_then_closes 1 "a" [("a", 1)] ["u"] [] (fun _ => true)
      [0] [.ok true (some 200)] (by decide) (by decide)⟩

/-- C4: with threshold `> 0` the rate-limit lookup and update happen
exactly once per connection, before any request is read: a rejected
connection yields the 429-and-close trace with the map untouched and
forwards nothing, independently of whatever requests are pending; an
admitted connection's final map is exactly the map after the single
`rate_limit` update (the client's count raised by exactly one),
independently of the requests subsequently forwarded. -/
theorem rate_limit_once_per_connection (N : Nat) (ip : Addr) (m : RLMap)
    (upstreams : List Addr) (report : Report) (connect : Addr → Bool)
    (draws : List Nat) (outs : List ReadOutcome) (hN : 0 < N) :
    (rate_over m N ip = true →
      handle_connection N ip m upstreams report connect draws outs =
        ⟨[.sentResponse 429, .closed], m⟩
      ∧ Event.forwardedRequest ∉
          (handle_connection N ip m upstreams report connect draws outs).events)
    ∧ (rate_over m N ip = false →
      (handle_connection N ip m upstreams report connect draws outs).rlmap =
        (rate_limit m N ip).2
      ∧ List.lookup ip
          (handle_connection N ip m upstreams report connect draws outs).rlmap =
        some ((List.lookup ip m).getD 0 + 1)) := by
  constructor
  · intro hov
    have h := handle_connection_reject N ip m upstreams report connect draws
      outs hN hov
    rw [h]
    refine ⟨rfl, ?_⟩
    intro hmem
    simp at hmem
  · intro hov
    have h := handle_connection_admit N ip m upstreams report connect draws
      outs hN hov
    rw [h, afterAdmission_rlmap]
    exact ⟨rfl, rate_limit_admit_lookup m N ip hov⟩

/-- Witness for C4 at a concrete admitted connection: the count of
`"a"` goes from absent to 1, whatever requests follow. -/
theorem rate_limit_once_per_connection_witness :
    (0 < 5 ∧ rate_over [] 5 "a" = false)
    ∧ List.lookup "a"
        (handle_connection 5 "a" [] ["u"] [] (fun _ => true) [0]
          [.ok true (some 200), .ok true (some 200)]).rlmap = some 1 :=
  ⟨⟨by decide, by decide⟩,
    ((rate_limit_once_per_connection 5 "a" [] ["u"] [] (fun _ => true) [0]
      [.ok true (some 200), .ok true (some 200)] (by decide)).2 (by decide)).2⟩

/-- C9: with the threshold at 0 the rate-limit gate is skipped entirely:
handling a connection is exactly the post-admission pipeline (which
never consults the table), the table is left untouched, the produced
events do not depend on the table at all, and across any sequence of
connections the table never grows from its initial empty state. -/
theorem threshold_zero_no_rate_limiting (ip : Addr) (m : RLMap)
    (upstreams : List Addr) (report : Report) (connect : Addr → Bool)
    (draws : List Nat) (outs : List ReadOutcome) :
    handle_connection 0 ip m upstreams report connect draws outs =
      afterAdmission m upstreams report connect draws outs
    ∧ (handle_connection 0 ip m upstreams report connect draws outs).rlmap = m
    ∧ (handle_connection 0 ip m upstreams report connect draws outs).events =
        (handle_connection 0 ip [] upstreams report connect draws outs).events
    ∧ ∀ conns : List ConnInput, runConnections 0 conns [] = [] := by
  refine ⟨handle_connection_zero _ _ _ _ _ _ _, ?_, ?_, fun conns => runConnections_zero conns []⟩
  · rw [handle_connection_zero, afterAdmission_rlmap]
  · rw [handle_connection_zero, handle_connection_zero]
    exact afterAdmission_events_indep m [] upstreams report connect draws outs

/-! ### Helper lemmas on upstream selection -/

theorem getD_mem_of_lt (l : List Addr) (i : Nat) (h : i < l.length) :
    l.getD i "" ∈ l := by
  rw [List.getD_eq_getElem l "" h]
  exact List.getElem_mem h

theorem connect_to_upstream_cons (upstreams : List Addr) (report : Report)
    (connect : Addr → Bool) (idx : Nat) (rest : List Nat) :
    connect_to_upstream upstreams report connect (idx :: rest) =
      (if report.contains (upstreams.getD idx "") then
        connect_to_upstream upstreams report connect rest
      else if connect (upstreams.getD idx "") then
        (.ok (upstreams.getD idx ""), [upstreams.getD idx ""])
      else
        ((connect_to_upstream upstreams report connect rest).1,
          upstreams.getD idx "" ::
            (connect_to_upstream upstreams report connect rest).2)) := rfl

theorem connect_dead_running (upstreams : List Addr) (report : Report)
    (connect : Addr → Bool)
    (hdead : ∀ ip ∈ upstreams, report.contains ip = true ∨ connect ip = false) :
    ∀ draws, (∀ i ∈ draws, i < upstreams.length) →
      (connect_to_upstream upstreams report connect draws).1 = .running := by
  intro draws
  induction draws with
  | nil => intro _; rfl
  | cons idx rest ih =>
    intro hb
    have hidx : idx < upstreams.length := hb idx (by simp)
    have hmem : upstreams.getD idx "" ∈ upstreams := getD_mem_of_lt _ _ hidx
    have hrest : ∀ i ∈ rest, i < upstreams.length := fun i hi =>
      hb i (List.mem_cons_of_mem _ hi)
    rw [connect_to_upstream_cons]
    by_cases hrep : report.contains (upstreams.getD idx "") = true
    · rw [if_pos hrep]
      exact ih hrest
    · have hc : connect (upstreams.getD idx "") = false := by
        rcases hdead _ hmem with h | h
        · exact absurd h hrep
        · exact h
      have hc2 : ¬ connect (upstreams.getD idx "") = true := by
        rw [hc]; exact Bool.false_ne_true
      rw [if_neg hrep, if_neg hc2]
      exact ih hrest

theorem connect_attempts_sound (upstreams : List Addr) (report : Report)
    (connect : Addr → Bool) :
    ∀ draws, (∀ i ∈ draws, i < upstreams.length) →
      (∀ a ∈ (connect_to_upstream upstreams report connect draws).2,
          a ∈ upstreams ∧ report.contains a = false)
      ∧ (∀ a, (connect_to_upstream upstreams report connect draws).1 = .ok a →
          a ∈ (connect_to_upstream upstreams report connect draws).2) := by
  intro draws
  induction draws with
  | nil =>
    intro _
    exact ⟨fun a ha => absurd ha (List.not_mem_nil a),
      fun a ha => ConnectOutcome.noConfusion ha⟩
  | cons idx rest ih =>
    intro hb
    have hidx : idx < upstreams.length := hb idx (by simp)
    have hmem : upstreams.getD idx "" ∈ upstreams := getD_mem_of_lt _ _ hidx
    have hrest : ∀ i ∈ rest, i < upstreams.length := fun i hi =>
      hb i (List.mem_cons_of_mem _ hi)
    obtain ⟨ihAtt, ihOk⟩ := ih hrest
    rw [connect_to_upstream_cons]
    by_cases hrep : report.contains (upstreams.getD idx "") = true
    · rw [if_pos hrep]
      exact ⟨ihAtt, ihOk⟩
    · have hrepf : report.contains (upstreams.getD idx "") = false :=
        Bool.not_eq_true _ ▸ Bool.of_not_eq_true hrep
      by_cases hc : connect (upstreams.getD idx "") = true
      · rw [if_neg hrep, if_pos hc]
        constructor
        · intro a ha
          rw [List.mem_singleton] at ha
          subst ha
          exact ⟨hmem, hrepf⟩
        · intro a ha
          cases ha
          exact List.mem_singleton_self _
      · have hc2 : ¬ connect (upstreams.getD idx "") = true := hc
        rw [if_neg hrep, if_neg hc2]
        constructor
        · intro a ha
          rcases List.mem_cons.mp ha with ha | ha
          · subst ha
            exact ⟨hmem, hrepf⟩
          · exact ihAtt a ha
        · intro a ha
          exact List.mem_cons_of_mem _ (ihOk a ha)

/-- C5: under a total outage — every configured upstream is either in
the liveness snapshot or refuses every connection attempt — the
selection loop of `connect_to_upstream` is still running after any
finite number of RNG draws: it never returns, neither with a connection
nor with the (unreachable) exhaustion error. -/
theorem selection_spins_under_total_outage (upstreams : List Addr)
    (report : Report) (connect : Addr → Bool) (draws : List Nat)
    (hdead : ∀ ip ∈ upstreams, report.contains ip = true ∨ connect ip = false)
    (hdraws : ∀ i ∈ draws, i < upstreams.length) :
    (connect_to_upstream upstreams report connect draws).1 = .running
    ∧ (∀ a, (connect_to_upstream upstreams report connect draws).1 ≠ .ok a)
    ∧ (∀ s, (connect_to_upstream upstreams report connect draws).1 ≠ .err s) := by
  have h := connect_dead_running upstreams report connect hdead draws hdraws
  rw [h]
  exact ⟨rfl, fun a hc => ConnectOutcome.noConfusion hc,
    fun s hc => ConnectOutcome.noConfusion hc⟩

/-- Witness for C5: two upstreams, one marked unhealthy and one refusing
connections; after three draws the loop is still running. -/
theorem selection_spins_witness :
    ((∀ ip ∈ ["u1", "u2"], List.contains ["u1"] ip = true ∨
        (fun _ => false : Addr → Bool) ip = false)
      ∧ (∀ i ∈ [0, 1, 0], i < (["u1", "u2"] : List Addr).length))
    ∧ (connect_to_upstream ["u1", "u2"] ["u1"] (fun _ => false)
        [0, 1, 0]).1 = .running :=
  ⟨⟨by decide, by decide⟩,
    (selection_spins_under_total_outage ["u1", "u2"] ["u1"] (fun _ => false)
      [0, 1, 0] (by decide) (by decide)).1⟩

/-- C2 (code evaluation): when the sole configured upstream refuses
every connection attempt, `handle_connection` produces no event at all —
in particular no 502 response ever reaches the client, because
`connect_to_upstream` never returns (its `Err` return lies after a loop
with no `break` and is unreachable). -/
theorem sole_dead_upstream_no_502 (ip : Addr) (m : RLMap) (u : Addr)
    (draws : List Nat) (outs : List ReadOutcome)
    (hdraws : ∀ i ∈ draws, i < 1) :
    (handle_connection 0 ip m [u] [] (fun _ => false) draws outs).events =
      [] := by
  have hdead : ∀ x ∈ [u], List.contains ([] : Report) x = true ∨
      (fun _ => false : Addr → Bool) x = false := by
    intro x _
    right
    rfl
  have hdraws1 : ∀ i ∈ draws, i < ([u] : List Addr).length := by
    simpa using hdraws
  have h := connect_dead_running [u] [] (fun _ => false) hdead draws hdraws1
  rw [handle_connection_zero]
  unfold afterAdmission
  rw [h]

/-- Witness for C2's code evaluation: one upstream, 100 failing draws,
no response sent. -/
theorem sole_dead_upstream_no_502_witness :
    (∀ i ∈ List.replicate 100 0, i < 1)
    ∧ (handle_connection 0 "client" [] ["u1"] [] (fun _ => false)
        (List.replicate 100 0) []).events = [] :=
  ⟨by decide,
    sole_dead_upstream_no_502 "client" [] "u1" (List.replicate 100 0) []
      (by decide)⟩

/-- C7: the selector works from the single snapshot taken at call start:
every address it attempts a connection to is a configured upstream that
is absent from the snapshot, any connection it returns is to such an
address, and when the snapshot leaves exactly one upstream live every
returned connection is to that one address. -/
theorem selector_snapshot_discipline (upstreams : List Addr)
    (report : Report) (connect : Addr → Bool) (draws : List Nat)
    (hdraws : ∀ i ∈ draws, i < upstreams.length) :
    (∀ a ∈ (connect_to_upstream upstreams report connect draws).2,
        a ∈ upstreams ∧ a ∉ report)
    ∧ (∀ a, (connect_to_upstream upstreams report connect draws).1 = .ok a →
        a ∈ upstreams ∧ a ∉ report)
    ∧ ∀ u, (∀ x ∈ upstreams, x ∉ report → x = u) →
        ∀ a, (connect_to_upstream upstreams report connect draws).1 = .ok a →
          a = u := by
  obtain ⟨hAtt, hOk⟩ := connect_attempts_sound upstreams report connect draws
    hdraws
  have hAtt2 : ∀ a ∈ (connect_to_upstream upstreams report connect draws).2,
      a ∈ upstreams ∧ a ∉ report := by
    intro a ha
    obtain ⟨h1, h2⟩ := hAtt a ha
    refine ⟨h1, ?_⟩
    simpa using h2
  refine ⟨hAtt2, ?_, ?_⟩
  · intro a ha
    exact hAtt2 a (hOk a ha)
  · intro u hu a ha
    obtain ⟨h1, h2⟩ := hAtt2 a (hOk a ha)
    exact hu a h1 h2

/-- Witness for C7: two upstreams with `"u1"` in the snapshot; the
returned connection is to `"u2"`, the unique live upstream. -/
theorem selector_snapshot_witness :
    ((∀ i ∈ [0, 1], i < (["u1", "u2"] : List Addr).length)
      ∧ (∀ x ∈ ["u1", "u2"], x ∉ (["u1"] : Report) → x = "u2")
      ∧ (connect_to_upstream ["u1", "u2"] ["u1"] (fun _ => true) [0, 1]).1 =
          .ok "u2")
    ∧ ∀ a, (connect_to_upstream ["u1", "u2"] ["u1"] (fun _ => true)
        [0, 1]).1 = .ok a → a = "u2" :=
  ⟨⟨by decide, by decide, by decide⟩,
    (selector_snapshot_discipline ["u1", "u2"] ["u1"] (fun _ => true) [0, 1]
      (by decide)).2.2 "u2" (by decide)⟩

/-- C6: for every parse error other than the zero-byte EOF and the
client-side I/O error, the request loop sends the synthesized error
response — 400 for a non-empty truncated request, malformed syntax and
the two content-length errors, 413 exactly for an oversized body — and
then continues reading on the same connection, so that a subsequent
well-formed request is still forwarded and answered. -/
theorem parse_error_response_and_continue (e : ReqError)
    (outs : List ReadOutcome)
    (h0 : e ≠ .incompleteRequest 0) (h1 : ∀ s, e ≠ .connectionError s) :
    requestLoop (.err e :: outs) =
      .sentResponse (errorStatus e) :: requestLoop outs
    ∧ (errorStatus e = 400 ∨ errorStatus e = 413)
    ∧ (errorStatus e = 413 ↔ e = .requestBodyTooLarge)
    ∧ ∀ st rest, requestLoop (.err e :: .ok true (some st) :: rest) =
        .sentResponse (errorStatus e) :: .forwardedRequest ::
          .sentResponse st :: requestLoop rest := by
  have hstep : ∀ outs2, requestLoop (.err e :: outs2) =
      .sentResponse (errorStatus e) :: requestLoop outs2 := by
    intro outs2
    cases e with
    | incompleteRequest n =>
      cases n with
      | zero => exact absurd rfl h0
      | succ n => rfl
    | malformedRequest msg => rfl
    | invalidContentLength => rfl
    | contentLengthMismatch => rfl
    | requestBodyTooLarge => rfl
    | connectionError msg => exact absurd rfl (h1 msg)
  refine ⟨hstep outs, ?_, ?_, ?_⟩
  · cases e with
    | connectionError msg => exact absurd rfl (h1 msg)
    | requestBodyTooLarge => right; rfl
    | incompleteRequest n => left; rfl
    | malformedRequest msg => left; rfl
    | invalidContentLength => left; rfl
    | contentLengthMismatch => left; rfl
  · cases e with
    | connectionError msg => exact absurd rfl (h1 msg)
    | requestBodyTooLarge => simp [errorStatus]
    | incompleteRequest n => simp [errorStatus]
    | malformedRequest msg => simp [errorStatus]
    | invalidContentLength => simp [errorStatus]
    | contentLengthMismatch => simp [errorStatus]
  · intro st rest
    rw [hstep]
    rfl

/-- Witness for C6: a malformed request gets a 400 and the following
well-formed request is still forwarded and its response relayed. -/
theorem parse_error_response_witness :
    ((ReqError.malformedRequest "bad" ≠ .incompleteRequest 0)
      ∧ ∀ s, ReqError.malformedRequest "bad" ≠ .connectionError s)
    ∧ requestLoop [.err (.malformedRequest "bad"), .ok true (some 200)] =
        [.sentResponse 400, .forwardedRequest, .sentResponse 200] :=
  ⟨⟨fun h => ReqError.noConfusion h, fun _ h => ReqError.noConfusion h⟩, by
    have h := (parse_error_response_and_continue (.malformedRequest "bad")
      [.ok true (some 200)] (fun h => ReqError.noConfusion h)
      (fun _ h => ReqError.noConfusion h)).2.2.2 200 []
    simpa [errorStatus] using h⟩

/-! ### Helper lemmas on health checking -/

theorem health_check_cycle_eq (probe : Addr → ProbeOutcome)
    (upstreams : List Addr) (prior : Report) :
    health_check_cycle probe upstreams prior = failedServers probe upstreams := by
  unfold health_check_cycle
  by_cases h : prior = failedServers probe upstreams
  · rw [if_neg (by simpa using h)]
    exact h
  · rw [if_pos h]

/-- C8: after any health-check cycle the published report equals exactly
the failure set freshly computed during that cycle — an upstream is in
it iff it is configured and its probe failed to connect, write or read,
or returned a status other than 200 — and any prior entry that is not in
the fresh set is gone, so the report is never the union of the fresh set
with the prior report. -/
theorem health_report_full_replacement (probe : Addr → ProbeOutcome)
    (upstreams : List Addr) (prior : Report) :
    health_check_cycle probe upstreams prior = failedServers probe upstreams
    ∧ (∀ ip, ip ∈ health_check_cycle probe upstreams prior ↔
        ip ∈ upstreams ∧ health_check_upstream (probe ip) = false)
    ∧ ∀ x ∈ prior, x ∉ failedServers probe upstreams →
        x ∉ health_check_cycle probe upstreams prior := by
  refine ⟨health_check_cycle_eq probe upstreams prior, ?_, ?_⟩
  · intro ip
    rw [health_check_cycle_eq]
    unfold failedServers
    rw [List.mem_filter]
    simp
  · intro x _ hx
    rw [health_check_cycle_eq]
    exact hx

/-- Witness for C8: an unhealthy prior entry whose probe now returns
200 disappears from the report even though the probe of the other
upstream still fails. -/
theorem health_report_full_replacement_witness :
    ("u1" ∈ (["u1"] : Report)
      ∧ "u1" ∉ failedServers
          (fun ip => if ip = "u1" then .status 200 else .connectFail)
          ["u1", "u2"])
    ∧ "u1" ∉ health_check_cycle
        (fun ip => if ip = "u1" then .status 200 else .connectFail)
        ["u1", "u2"] ["u1"] :=
  ⟨⟨by decide, by decide⟩,
    (health_report_full_replacement
      (fun ip => if ip = "u1" then .status 200 else .connectFail)
      ["u1", "u2"] ["u1"]).2.2 "u1" (by decide) (by decide)⟩

/-- C10: the liveness report is a subset of the configured upstream
list at every point: it starts empty and after any number of
health-check cycles every address it contains is a configured
upstream. -/
theorem report_subset_of_upstreams (probes : Nat → Addr → ProbeOutcome)
    (upstreams : List Addr) :
    ∀ n, ∀ x ∈ reportAfter probes upstreams n, x ∈ upstreams := by
  intro n
  induction n with
  | zero => intro x hx; cases hx
  | succ n ih =>
    intro x hx
    rw [reportAfter, health_check_cycle_eq] at hx
    unfold failedServers at hx
    exact (List.mem_filter.mp hx).1

/-- Witness for C10: after one cycle in which the sole upstream's probe
fails, the report contains that upstream and it is indeed configured. -/
theorem report_subset_witness :
    ("u1" ∈ reportAfter (fun _ _ => .connectFail) ["u1"] 1)
    ∧ "u1" ∈ (["u1"] : List Addr) :=
  ⟨by decide,
    report_subset_of_upstreams (fun _ _ => .connectFail) ["u1"] 1 "u1"
      (by decide)⟩

end Balancebeam
